import Mathlib

/-!
Shallow embedding of `Entry-M_DHT.ino` (temperature/humidity monitor driving an
Entry-M display over a serial link).

Bytes are modelled as natural numbers (frame templates only hold values < 256,
and every computed byte passes through reduction mod 256, mirroring C's
conversion to `unsigned char`).  C `float` inputs are modelled as exact
rationals; the C cast `(int)x` is truncation toward zero, embedded as `cint`.
`delay`, `Serial.write` and `Serial.read` are modelled by explicit event
traces; the incoming serial stream is a function from poll instants to
`Option` bytes (`none` = `Serial.available()` is false at that poll).
-/

/-- Response byte 0x06, `#define ACK 0x06` in the source. -/
def ACK : ℕ := 0x06

/-- Response byte 0x15, `#define NAK 0x15` in the source. -/
def NAK : ℕ := 0x15

/-- Embedding of `byte CheckSum(const char* data, int count)`: fold the
running 8-bit accumulator `BCC += data[i]` over the first `count` bytes.
Addition into a `byte` wraps mod 256 at every step, exactly as the C
`unsigned char` accumulator does. -/
def CheckSum (data : List ℕ) (count : ℕ) : ℕ :=
  (data.take count).foldl (fun BCC b => (BCC + b) % 256) 0

/-- C cast `(int)q` on a real value: truncation toward zero (`Rat.blt q 0`
is the executable test for `q < 0`). -/
def cint (q : ℚ) : ℤ :=
  if Rat.blt q 0 then Rat.ceil q else Rat.floor q

/-- Conversion of a C `int` expression to `unsigned char` (store into a
frame byte): reduction mod 256. -/
def toByte (z : ℤ) : ℕ :=
  (Int.emod z 256).toNat

/-- Static frame of `UpdateScreen` (20 bytes, copy virtual layer to
foreground). -/
def updateScreenFrame : List ℕ :=
  [0x01,0x14,0x02,0x04,0x31,0x03,0x00,0x00,0x00,0x00,0x00,0xFF,0xFF,0xFF,
   0xFF,0xFF,0xFF,0x0A,0x53,0x0D]

/-- Static frame of `ClearTemperature` (16 bytes). -/
def clearTemperatureFrame : List ℕ :=
  [0x01,0x10,0x02,0x04,0x41,0x00,0x87,0x00,0x50,0x01,0xDB,0x01,0x10,0x0A,
   0x26,0x0D]

/-- Static frame of `ClearHumidity` (16 bytes). -/
def clearHumidityFrame : List ℕ :=
  [0x01,0x10,0x02,0x04,0x41,0x00,0x9A,0x00,0x8C,0x01,0xDB,0x00,0xB4,0x0A,
   0x18,0x0D]

/-- Initial contents of the static 33-byte buffer of `UpdateTemperature`
(label "Temp: 00.0 c"). -/
def tempDrawTemplate : List ℕ :=
  [0x01,0x21,0x02,0x04,0x31,0x10,0x00,0x00,0x87,0x00,0x50,0xFF,0xFF,0xFF,
   0x00,0x00,0x00,0x54,0x65,0x6D,0x70,0x3A,0x20,0x30,0x30,0x2E,0x30,0x20,
   0x63,0x20,0x0A,0x98,0x0D]

/-- Initial contents of the static 30-byte buffer of `UpdateHumidity`
(label "Hum: 00 %"). -/
def humDrawTemplate : List ℕ :=
  [0x01,0x1E,0x02,0x04,0x31,0x10,0x00,0x00,0x9A,0x00,0x8C,0xFF,0xFF,0xFF,
   0x00,0x00,0x00,0x48,0x75,0x6D,0x3A,0x20,0x30,0x30,0x20,0x25,0x20,0x0A,
   0xDC,0x0D]

/-- Byte stored by `XXX[26] = (int)(deg * 10) % 10 + '0'`. -/
def tempTenthsByte (deg : ℚ) : ℕ :=
  toByte (Int.tmod (cint (deg * 10)) 10 + 48)

/-- Byte stored by `XXX[24] = (int)deg % 10 + '0'`. -/
def tempOnesByte (deg : ℚ) : ℕ :=
  toByte (Int.tmod (cint deg) 10 + 48)

/-- Byte stored by `XXX[23] = ((int)deg / 10) % 10 + '0'`, then blanked to a
space by `if(XXX[23] == '0') XXX[23] = ' '`. -/
def tempTensByte (deg : ℚ) : ℕ :=
  let c := toByte (Int.tmod (Int.tdiv (cint deg) 10) 10 + 48)
  if c = 48 then 32 else c

/-- Byte stored by `XXX[23] = (int)hum % 10 + '0'`. -/
def humOnesByte (hum : ℚ) : ℕ :=
  toByte (Int.tmod (cint hum) 10 + 48)

/-- Byte stored by `XXX[22] = ((int)hum / 10) % 10 + '0'`, then blanked to a
space by `if(XXX[22] == '0') XXX[22] = ' '`. -/
def humTensByte (hum : ℚ) : ℕ :=
  let c := toByte (Int.tmod (Int.tdiv (cint hum) 10) 10 + 48)
  if c = 48 then 32 else c

/-- Body of `UpdateTemperature` acting on the static buffer `XXX`: patch the
three digit bytes (offsets 26, 24, 23, in source order), then recompute the
checksum into offset 31 with `XXX[31] = CheckSum(XXX, sizeof(XXX) - 2)`. -/
def patchTemp (buf : List ℕ) (deg : ℚ) : List ℕ :=
  let b := ((buf.set 26 (tempTenthsByte deg)).set 24 (tempOnesByte deg)).set
    23 (tempTensByte deg)
  b.set 31 (CheckSum b 31)

/-- Body of `UpdateHumidity` acting on the static buffer `XXX`: patch the two
digit bytes (offsets 23, 22), then recompute the checksum into offset 28. -/
def patchHum (buf : List ℕ) (hum : ℚ) : List ℕ :=
  let b := (buf.set 23 (humOnesByte hum)).set 22 (humTensByte hum)
  b.set 28 (CheckSum b 28)

/-- Frame sent by `UpdateTemperature(deg)` on a first call (static buffer
still holding its initializer). -/
def updateTemperatureFrame (deg : ℚ) : List ℕ :=
  patchTemp tempDrawTemplate deg

/-- Frame sent by `UpdateHumidity(hum)` on a first call. -/
def updateHumidityFrame (hum : ℚ) : List ℕ :=
  patchHum humDrawTemplate hum

/-- Observable protocol-level actions of the sketch: sleeping (`delay`),
writing a command frame (`WriteCommand`), waiting for a response
(`WaitResponse(minT, maxT)`), and logging the sensor-failure text line
(`Serial.println(F("Failed to read from DHT sensor!"))`). -/
inductive Cmd where
  | sleep (ms : ℕ)
  | write (frame : List ℕ)
  | wait (minT maxT : ℕ)
  | log
deriving DecidableEq

/-- Commands issued by `ClearTemperature()`. -/
def ClearTemperatureCmds : List Cmd :=
  [Cmd.write clearTemperatureFrame, Cmd.wait 100 500]

/-- Commands issued by `ClearHumidity()`. -/
def ClearHumidityCmds : List Cmd :=
  [Cmd.write clearHumidityFrame, Cmd.wait 100 500]

/-- Commands issued by `UpdateScreen()`. -/
def UpdateScreenCmds : List Cmd :=
  [Cmd.write updateScreenFrame, Cmd.wait 100 500]

/-- `UpdateTemperature(deg)` with explicit state for the static buffer:
returns the issued command list (clear, wait, draw, wait) and the buffer
contents left behind for the next call. -/
def UpdateTemperatureSt (buf : List ℕ) (deg : ℚ) : List Cmd × List ℕ :=
  let f := patchTemp buf deg
  (ClearTemperatureCmds ++ [Cmd.write f, Cmd.wait 100 500], f)

/-- `UpdateHumidity(hum)` with explicit state for the static buffer. -/
def UpdateHumiditySt (buf : List ℕ) (hum : ℚ) : List Cmd × List ℕ :=
  let f := patchHum buf hum
  (ClearHumidityCmds ++ [Cmd.write f, Cmd.wait 100 500], f)

/-- One iteration of `loop()`: `delay(MIN_READ_PERIOD)`, read humidity and
temperature (`none` models a NaN reading), and either bail out with the
failure message or run the three display operations.  Takes and returns the
two static draw buffers explicitly. -/
def loopCycle (h t : Option ℚ) (tBuf hBuf : List ℕ) :
    List Cmd × List ℕ × List ℕ :=
  match h, t with
  | some hv, some tv =>
    let (tc, tBuf') := UpdateTemperatureSt tBuf tv
    let (hc, hBuf') := UpdateHumiditySt hBuf hv
    (Cmd.sleep 2000 :: (tc ++ hc ++ UpdateScreenCmds), tBuf', hBuf')
  | _, _ => ([Cmd.sleep 2000, Cmd.log], tBuf, hBuf)

/-- Command frames actually written to the serial link by a command list
(the payloads of its `Cmd.write` entries, in order). -/
def protocolWrites (cs : List Cmd) : List (List ℕ) :=
  cs.filterMap fun c =>
    match c with
    | Cmd.write f => some f
    | _ => none

/-- Waiter invocations performed by a command list (the parameter pairs of
its `Cmd.wait` entries, in order). -/
def waitCalls (cs : List Cmd) : List (ℕ × ℕ) :=
  cs.filterMap fun c =>
    match c with
    | Cmd.wait a b => some (a, b)
    | _ => none

/-- Timed events performed inside `WaitResponse`: a call to `delay(ms)` or a
`Serial.read()` that consumed the byte `b`. -/
inductive Ev where
  | delay (ms : ℕ)
  | read (b : ℕ)
deriving DecidableEq

/-- Time cost of one event: `delay ms` blocks for `ms` time units, a read is
immediate. -/
def Ev.time : Ev → ℕ
  | .delay ms => ms
  | .read _ => 0

/-- Total blocking time of an event trace. -/
def elapsed (tr : List Ev) : ℕ :=
  (tr.map Ev.time).sum

/-- Result of a terminating run of `WaitResponse`: the returned byte `ret`,
the final value of the `timer` variable (number of empty polls), and the
trace of timed events performed. -/
structure WaitRes where
  ret : ℕ
  timer : ℕ
  trace : List Ev
deriving DecidableEq

/-- Embedding of the `while` loop of `WaitResponse`.  The incoming stream
`s` maps each poll instant to the byte `Serial.read()` would return, or
`none` when `Serial.available()` is false; `idx` counts poll instants.  The
loop body is not structurally terminating (reads of byte 0 leave both `ret`
and `timer` unchanged), so the recursion is clocked by `fuel`; `none` means
the loop has not returned within `fuel` iterations. -/
def waitLoop (s : ℕ → Option ℕ) (maxWaitTime : ℕ) :
    ℕ → ℕ → ℕ → ℕ → Option WaitRes
  | 0, _, _, _ => none
  | fuel + 1, ret, timer, idx =>
    if ret = 0 ∧ (timer < maxWaitTime ∨ maxWaitTime = 0) then
      match s idx with
      | some b =>
        if b = ACK ∨ b = NAK then
          some ⟨b, timer, [Ev.read b]⟩
        else
          Option.map (fun r => ⟨r.ret, r.timer, Ev.read b :: r.trace⟩)
            (waitLoop s maxWaitTime fuel b timer (idx + 1))
      | none =>
        Option.map (fun r => ⟨r.ret, r.timer, Ev.delay 1 :: r.trace⟩)
          (waitLoop s maxWaitTime fuel ret (timer + 1) (idx + 1))
    else
      some ⟨ret, timer, []⟩

/-- Embedding of `unsigned char WaitResponse(unsigned long minWaitTime,
unsigned long maxWaitTime)`: the guarded initial `delay(minWaitTime)`
followed by the polling loop started with `ret = 0`, `timer = 0`. -/
def WaitResponse (minWaitTime maxWaitTime : ℕ) (s : ℕ → Option ℕ)
    (fuel : ℕ) : Option WaitRes :=
  Option.map
    (fun r => ⟨r.ret, r.timer,
      (if 0 < minWaitTime then [Ev.delay minWaitTime] else []) ++ r.trace⟩)
    (waitLoop s maxWaitTime fuel 0 0 0)

/-- Transport that never yields a byte. -/
def emptyStream : ℕ → Option ℕ := fun _ => none

/-- Transport with a byte available at every poll, always 0x00. -/
def zeroStream : ℕ → Option ℕ := fun _ => some 0

/-- Transport that yields `b` at the first poll, then behaves as `s`. -/
def scons (b : ℕ) (s : ℕ → Option ℕ) : ℕ → Option ℕ
  | 0 => some b
  | n + 1 => s n

/-- Normalized form of the product with 10, used to evaluate the C
expression `deg * 10` on an exact rational input (Batteries marks `Rat.mul`
irreducible, so the product itself does not evaluate inside the kernel). -/
theorem rat_mul_ten (q : ℚ) : q * 10 = mkRat (q.num * 10) q.den := by
  rw [Rat.mkRat_eq_div]
  push_cast
  conv_lhs => rw [← Rat.num_div_den q]
  ring

/-- Evaluation form of `tempTenthsByte` on the rational's components. -/
theorem tempTenthsByte_as_mkRat (q : ℚ) :
    tempTenthsByte q
      = toByte (Int.tmod (cint (mkRat (q.num * 10) q.den)) 10 + 48) := by
  rw [tempTenthsByte, rat_mul_ten]

/-- Decimal literal 18.5 as a normalized rational. -/
theorem lit_c6 : (18.5 : ℚ) = mkRat 37 2 := by
  rw [Rat.mkRat_eq_div]; norm_num

/-- Decimal literal 7.83 as a normalized rational. -/
theorem lit_temp_a : (7.83 : ℚ) = mkRat 783 100 := by
  rw [Rat.mkRat_eq_div]; norm_num

/-- Decimal literal 23.05 as a normalized rational. -/
theorem lit_temp_b : (23.05 : ℚ) = mkRat 461 20 := by
  rw [Rat.mkRat_eq_div]; norm_num


/-- Folding the wrapping 8-bit accumulator over a list agrees with the plain
sum reduced mod 256, for any starting accumulator. -/
theorem foldl_mod_256 (l : List ℕ) (a : ℕ) :
    l.foldl (fun BCC b => (BCC + b) % 256) (a % 256) = (a + l.sum) % 256 := by
  induction l generalizing a with
  | nil => simp
  | cons b t ih =>
    simp only [List.foldl, List.sum_cons]
    rw [Nat.mod_add_mod, ih (a + b)]
    ring_nf

/-- Taking fewer elements than the index of a `set` ignores the `set`. -/
theorem take_set_of_le (l : List ℕ) (c i x : ℕ) (h : c ≤ i) :
    (l.set i x).take c = l.take c := by
  induction l generalizing c i with
  | nil => simp
  | cons a t ih =>
    cases i with
    | zero =>
      have hc : c = 0 := Nat.le_zero.mp h
      simp [hc]
    | succ j =>
      cases c with
      | zero => simp
      | succ c' =>
        simp only [List.set, List.take]
        rw [ih c' j (Nat.le_of_succ_le_succ h)]

/-- Closed form of `CheckSum`: the truncated 8-bit sum of the first `count`
bytes. -/
theorem CheckSum_eq_sum (data : List ℕ) (count : ℕ) :
    CheckSum data count = (data.take count).sum % 256 := by
  have h := foldl_mod_256 (data.take count) 0
  simpa [CheckSum] using h

/-- `CheckSum` is insensitive to writes at or beyond `count`. -/
theorem CheckSum_set_of_le (data : List ℕ) (count i x : ℕ) (h : count ≤ i) :
    CheckSum (data.set i x) count = CheckSum data count := by
  unfold CheckSum
  rw [take_set_of_le _ _ _ _ h]

/-- Well-formedness of the patched temperature frame, for any 33-byte
contents of the static buffer. -/
theorem patchTemp_checksum (buf : List ℕ) (deg : ℚ) (hlen : buf.length = 33) :
    (patchTemp buf deg).length = 33 ∧
    (patchTemp buf deg).get? 31 = some (CheckSum (patchTemp buf deg) 31) := by
  unfold patchTemp
  refine ⟨by simp [hlen], ?_⟩
  rw [List.get?_set_eq_of_lt _ (by simp [hlen]),
    CheckSum_set_of_le _ _ _ _ (Nat.le_refl 31)]

/-- Well-formedness of the patched humidity frame, for any 30-byte contents
of the static buffer. -/
theorem patchHum_checksum (buf : List ℕ) (hum : ℚ) (hlen : buf.length = 30) :
    (patchHum buf hum).length = 30 ∧
    (patchHum buf hum).get? 28 = some (CheckSum (patchHum buf hum) 28) := by
  unfold patchHum
  refine ⟨by simp [hlen], ?_⟩
  rw [List.get?_set_eq_of_lt _ (by simp [hlen]),
    CheckSum_set_of_le _ _ _ _ (Nat.le_refl 28)]

/-- C1. Every command frame the program transmits carries a valid additive
checksum: in each of the two 16-byte clear frames, the 20-byte flip frame,
and every 33-byte temperature / 30-byte humidity draw frame produced by
patching a 33- or 30-byte static buffer, the byte at offset length-2 equals
the mod-256 sum of the bytes at offsets 0 through length-3. -/
theorem c1_frame_checksum_invariant :
    clearTemperatureFrame.get? 14 = some (CheckSum clearTemperatureFrame 14)
    ∧ clearHumidityFrame.get? 14 = some (CheckSum clearHumidityFrame 14)
    ∧ updateScreenFrame.get? 18 = some (CheckSum updateScreenFrame 18)
    ∧ (∀ (buf : List ℕ) (deg : ℚ), buf.length = 33 →
        (patchTemp buf deg).length = 33 ∧
        (patchTemp buf deg).get? 31
          = some (CheckSum (patchTemp buf deg) 31))
    ∧ (∀ (buf : List ℕ) (hum : ℚ), buf.length = 30 →
        (patchHum buf hum).length = 30 ∧
        (patchHum buf hum).get? 28
          = some (CheckSum (patchHum buf hum) 28)) := by
  refine ⟨by decide, by decide, by decide, ?_, ?_⟩
  · exact fun buf deg h => patchTemp_checksum buf deg h
  · exact fun buf hum h => patchHum_checksum buf hum h

/-- C2. `CheckSum(data, count)` with `count` within bounds is the sum of the
first `count` bytes reduced mod 256 (8-bit wraparound), and does not depend
on any byte at an index `≥ count`. -/
theorem c2_checksum_spec (data : List ℕ) (count : ℕ)
    (h : count ≤ data.length) :
    CheckSum data count = (data.take count).sum % 256
    ∧ ∀ i x, count ≤ i →
        CheckSum (data.set i x) count = CheckSum data count := by
  exact ⟨CheckSum_eq_sum data count,
    fun i x hi => CheckSum_set_of_le data count i x hi⟩

/-- Witness for C2 at a concrete byte sequence whose sum wraps past 255. -/
theorem c2_checksum_spec_witness :
    2 ≤ ([1, 250, 30] : List ℕ).length
    ∧ CheckSum [1, 250, 30] 2 = (([1, 250, 30] : List ℕ).take 2).sum % 256
    ∧ CheckSum (([1, 250, 30] : List ℕ).set 2 99) 2
        = CheckSum [1, 250, 30] 2 := by
  refine ⟨by decide, (c2_checksum_spec [1, 250, 30] 2 (by decide)).1,
    (c2_checksum_spec [1, 250, 30] 2 (by decide)).2 2 99 (by decide)⟩

/-- Blocking time of a trace extended on the left. -/
theorem elapsed_cons (e : Ev) (tr : List Ev) :
    elapsed (e :: tr) = Ev.time e + elapsed tr := by
  simp [elapsed]

/-- Blocking time of the concatenation of two traces. -/
theorem elapsed_append (a b : List Ev) :
    elapsed (a ++ b) = elapsed a + elapsed b := by
  simp [elapsed]

/-- On a silent transport the polling loop performs exactly the remaining
`maxW - timer` one-tick delays and returns 0. -/
theorem waitLoop_emptyStream (maxW : ℕ) (h0 : 0 < maxW) :
    ∀ d timer idx, timer + d = maxW →
    waitLoop emptyStream maxW (d + 1) 0 timer idx
      = some ⟨0, maxW, List.replicate d (Ev.delay 1)⟩ := by
  intro d
  induction d with
  | zero =>
    intro timer idx h
    rw [Nat.add_zero] at h
    rw [waitLoop, if_neg]
    · simp [h]
    · rintro ⟨-, hlt | hz⟩
      · exact absurd hlt (by omega)
      · omega
  | succ d ih =>
    intro timer idx h
    rw [waitLoop, if_pos ⟨rfl, Or.inl (by omega)⟩]
    show Option.map _ (waitLoop emptyStream maxW (d + 1) 0 (timer + 1)
      (idx + 1)) = _
    rw [ih (timer + 1) (idx + 1) (by omega)]
    simp [List.replicate_succ]

/-- On a transport that keeps a 0x00 byte available at every poll, the loop
guard never becomes false: neither `ret` nor `timer` ever changes, so the
loop never returns, however many iterations it is allowed. -/
theorem waitLoop_zeroStream (maxW fuel timer idx : ℕ)
    (h : timer < maxW ∨ maxW = 0) :
    waitLoop zeroStream maxW fuel 0 timer idx = none := by
  induction fuel generalizing idx with
  | zero => rfl
  | succ n ih =>
    rw [waitLoop, if_pos ⟨rfl, h⟩]
    show Option.map _ (waitLoop zeroStream maxW n 0 timer (idx + 1)) = none
    rw [ih (idx + 1)]
    rfl

/-- With a nonzero `ret` already in hand, the loop guard fails at once and
`ret` is returned to the caller. -/
theorem waitLoop_ret_nonzero (s : ℕ → Option ℕ)
    (maxW fuel ret timer idx : ℕ) (h : ret ≠ 0) :
    waitLoop s maxW (fuel + 1) ret timer idx = some ⟨ret, timer, []⟩ := by
  rw [waitLoop, if_neg (fun hh => h hh.1)]

/-- On a transport that never supplies the byte 0x00, the loop returns
within `d + 2` iterations (where `d` is the remaining poll budget) and
accrues at most `d` ticks of delay. -/
theorem waitLoop_no_zero (s : ℕ → Option ℕ) (maxW : ℕ) (h0 : 0 < maxW)
    (hs : ∀ n b, s n = some b → b ≠ 0) :
    ∀ d timer idx, timer + d = maxW →
    ∃ r, waitLoop s maxW (d + 2) 0 timer idx = some r
      ∧ elapsed r.trace ≤ d := by
  intro d
  induction d with
  | zero =>
    intro timer idx h
    refine ⟨⟨0, timer, []⟩, ?_, by simp [elapsed]⟩
    rw [waitLoop, if_neg]
    rintro ⟨-, hlt | hz⟩
    · omega
    · omega
  | succ d ih =>
    intro timer idx h
    rw [waitLoop, if_pos ⟨rfl, Or.inl (by omega)⟩]
    cases hsi : s idx with
    | none =>
      obtain ⟨r, hr, he⟩ := ih (timer + 1) (idx + 1) (by omega)
      refine ⟨⟨r.ret, r.timer, Ev.delay 1 :: r.trace⟩, ?_, ?_⟩
      · show Option.map _ (waitLoop s maxW (d + 2) 0 (timer + 1) (idx + 1))
          = _
        rw [hr]
        rfl
      · rw [elapsed_cons]
        show Ev.time (Ev.delay 1) + elapsed r.trace ≤ d + 1
        simp only [Ev.time]
        omega
    | some b =>
      have hb : b ≠ 0 := hs idx b hsi
      refine ⟨⟨b, timer, [Ev.read b]⟩, ?_, by simp [elapsed, Ev.time]⟩
      show (if b = ACK ∨ b = NAK
          then some (⟨b, timer, [Ev.read b]⟩ : WaitRes)
        else Option.map
          (fun r => (⟨r.ret, r.timer, Ev.read b :: r.trace⟩ : WaitRes))
          (waitLoop s maxW (d + 2) b timer (idx + 1))) = _
      by_cases hAN : b = ACK ∨ b = NAK
      · rw [if_pos hAN]
      · rw [if_neg hAN,
          waitLoop_ret_nonzero s maxW (d + 1) b timer (idx + 1) hb]
        rfl

/-- Behaviour of the polling loop when the first poll yields a non-ACK/NAK
byte `b` and the next poll would yield ACK: a zero byte is skipped and ACK
is returned, while a nonzero byte terminates the loop and is returned. -/
theorem waitLoop_first_byte (b : ℕ) (s : ℕ → Option ℕ) (fuel : ℕ)
    (hA : b ≠ ACK) (hN : b ≠ NAK) :
    waitLoop (scons b (scons ACK s)) 500 (fuel + 2) 0 0 0
      = some (if b = 0
          then ⟨ACK, 0, [Ev.read 0, Ev.read ACK]⟩
          else ⟨b, 0, [Ev.read b]⟩) := by
  have hAN : ¬ (b = ACK ∨ b = NAK) := by
    rintro (h | h)
    exacts [hA h, hN h]
  rw [waitLoop, if_pos ⟨rfl, Or.inl (by omega)⟩]
  show (if b = ACK ∨ b = NAK
      then some (⟨b, 0, [Ev.read b]⟩ : WaitRes)
      else Option.map
        (fun r => (⟨r.ret, r.timer, Ev.read b :: r.trace⟩ : WaitRes))
        (waitLoop (scons b (scons ACK s)) 500 (fuel + 1) b 0 1)) = _
  rw [if_neg hAN]
  by_cases hb : b = 0
  · subst hb
    rw [waitLoop, if_pos ⟨rfl, Or.inl (by omega)⟩]
    show Option.map
        (fun r => (⟨r.ret, r.timer, Ev.read 0 :: r.trace⟩ : WaitRes))
        (if ACK = ACK ∨ ACK = NAK
          then some (⟨ACK, 0, [Ev.read ACK]⟩ : WaitRes)
          else Option.map
            (fun r => (⟨r.ret, r.timer, Ev.read ACK :: r.trace⟩ : WaitRes))
            (waitLoop (scons 0 (scons ACK s)) 500 fuel ACK 0 2)) = _
    rw [if_pos (Or.inl rfl)]
    simp
  · rw [waitLoop_ret_nonzero _ _ fuel b 0 1 hb]
    simp [hb]

/-- C3 (amended). When `WaitResponse` reads a byte that is neither ACK nor
NAK, the byte is discarded and polling continues only if it is 0x00 (in
which case a following ACK is then returned); a nonzero such byte instead
terminates the wait at once and is returned to the caller. -/
theorem c3_noise_byte_handling (b : ℕ) (s : ℕ → Option ℕ) (fuel : ℕ)
    (hA : b ≠ ACK) (hN : b ≠ NAK) :
    WaitResponse 100 500 (scons b (scons ACK s)) (fuel + 2)
      = some (if b = 0
          then ⟨ACK, 0, [Ev.delay 100, Ev.read 0, Ev.read ACK]⟩
          else ⟨b, 0, [Ev.delay 100, Ev.read b]⟩) := by
  rw [WaitResponse, waitLoop_first_byte b s fuel hA hN]
  by_cases hb : b = 0 <;> simp [hb]

/-- Witness for C3's amended statement at the zero noise byte. -/
theorem c3_noise_byte_handling_witness :
    (0 : ℕ) ≠ ACK ∧ (0 : ℕ) ≠ NAK
    ∧ WaitResponse 100 500 (scons 0 (scons ACK emptyStream)) (0 + 2)
        = some (if (0 : ℕ) = 0
            then ⟨ACK, 0, [Ev.delay 100, Ev.read 0, Ev.read ACK]⟩
            else ⟨0, 0, [Ev.delay 100, Ev.read 0]⟩) :=
  ⟨by decide, by decide,
    c3_noise_byte_handling 0 emptyStream 0 (by decide) (by decide)⟩

/-- Counterexample to C3 as stated: on a transport yielding the non-ACK/NAK
byte 0x41 and then ACK, `WaitResponse` does not discard 0x41 and does not
return ACK; it returns 0x41 immediately. -/
theorem c3_noise_not_discarded_counterexample :
    WaitResponse 100 500 (scons 0x41 (scons ACK emptyStream)) 10
      = some ⟨0x41, 0, [Ev.delay 100, Ev.read 0x41]⟩
    ∧ (0x41 : ℕ) ≠ ACK ∧ (0x41 : ℕ) ≠ NAK := by
  decide

/-- C4. With positive `minWaitTime` and `maxWaitTime`, `WaitResponse` first
performs the unconditional `delay(minWaitTime)` ahead of every polling
event, and on a transport that never yields a byte it returns the timeout
sentinel 0 (distinct from ACK and NAK) after exactly `maxWaitTime` one-tick
polls. -/
theorem c4_predelay_and_timeout (minW maxW : ℕ) (s : ℕ → Option ℕ)
    (fuel : ℕ) (h1 : 0 < minW) (h2 : 0 < maxW) :
    WaitResponse minW maxW s fuel
      = Option.map
          (fun r => (⟨r.ret, r.timer, Ev.delay minW :: r.trace⟩ : WaitRes))
          (waitLoop s maxW fuel 0 0 0)
    ∧ WaitResponse minW maxW emptyStream (maxW + 1)
      = some ⟨0, maxW, Ev.delay minW :: List.replicate maxW (Ev.delay 1)⟩
    ∧ elapsed (Ev.delay minW :: List.replicate maxW (Ev.delay 1))
        = minW + maxW
    ∧ (0 : ℕ) ≠ ACK ∧ (0 : ℕ) ≠ NAK := by
  have hpre : ∀ (t : ℕ → Option ℕ) (f : ℕ),
      WaitResponse minW maxW t f
        = Option.map
            (fun r => (⟨r.ret, r.timer, Ev.delay minW :: r.trace⟩ : WaitRes))
            (waitLoop t maxW f 0 0 0) := by
    intro t f
    simp only [WaitResponse, h1, if_true]
    rfl
  refine ⟨hpre s fuel, ?_, ?_, by decide, by decide⟩
  · rw [hpre emptyStream (maxW + 1),
      waitLoop_emptyStream maxW h2 maxW 0 0 (by omega)]
    rfl
  · simp [elapsed, Ev.time, List.map_replicate, List.sum_replicate,
      smul_eq_mul]

/-- Witness for C4 at `minWaitTime = 1`, `maxWaitTime = 2`. -/
theorem c4_predelay_and_timeout_witness :
    0 < 1 ∧ 0 < 2
    ∧ (WaitResponse 1 2 emptyStream 3
        = Option.map
            (fun r => (⟨r.ret, r.timer, Ev.delay 1 :: r.trace⟩ : WaitRes))
            (waitLoop emptyStream 2 3 0 0 0)
      ∧ WaitResponse 1 2 emptyStream (2 + 1)
        = some ⟨0, 2, Ev.delay 1 :: List.replicate 2 (Ev.delay 1)⟩
      ∧ elapsed (Ev.delay 1 :: List.replicate 2 (Ev.delay 1)) = 1 + 2
      ∧ (0 : ℕ) ≠ ACK ∧ (0 : ℕ) ≠ NAK) :=
  ⟨by decide, by decide,
    c4_predelay_and_timeout 1 2 emptyStream 3 (by decide) (by decide)⟩

/-- C5 (amended). On a transport that never makes a 0x00 byte available,
with `maxWaitTime > 0`, a wait after a command send returns within fuel
`maxWaitTime + 2` and blocks for at least `minWaitTime` and at most
`minWaitTime + maxWaitTime` time units. -/
theorem c5_blocking_bounds (minW maxW : ℕ) (s : ℕ → Option ℕ)
    (h2 : 0 < maxW) (hs : ∀ n b, s n = some b → b ≠ 0) :
    ∃ r, WaitResponse minW maxW s (maxW + 2) = some r
      ∧ minW ≤ elapsed r.trace ∧ elapsed r.trace ≤ minW + maxW := by
  obtain ⟨r, hr, he⟩ := waitLoop_no_zero s maxW h2 hs maxW 0 0 (by omega)
  refine ⟨⟨r.ret, r.timer,
    (if 0 < minW then [Ev.delay minW] else []) ++ r.trace⟩, ?_, ?_⟩
  · rw [WaitResponse, hr]
    rfl
  · have hel : elapsed ((if 0 < minW then [Ev.delay minW] else [])
        ++ r.trace) = minW + elapsed r.trace := by
      by_cases h1 : 0 < minW
      · simp [h1, elapsed_append, elapsed, Ev.time]
      · have h0 : minW = 0 := by omega
        simp [h1, h0]
    rw [hel]
    omega

/-- Witness for the amended C5 on the silent transport. -/
theorem c5_blocking_bounds_witness :
    ∃ r, WaitResponse 1 2 emptyStream (2 + 2) = some r
      ∧ 1 ≤ elapsed r.trace ∧ elapsed r.trace ≤ 1 + 2 :=
  c5_blocking_bounds 1 2 emptyStream (by decide)
    (fun n b h => by simp [emptyStream] at h)

/-- Counterexample to C5 as stated: with `minWaitTime = 100` and
`maxWaitTime = 500 > 0`, a device that keeps streaming 0x00 bytes makes
`WaitResponse` loop forever — it never returns, however much fuel the loop
is given, even though the claim allows indefinite blocking only when
`maxWaitTime == 0`. -/
theorem c5_zero_flood_never_returns :
    ¬ ∃ (fuel : ℕ) (r : WaitRes),
      WaitResponse 100 500 zeroStream fuel = some r := by
  rintro ⟨fuel, r, hr⟩
  rw [WaitResponse,
    waitLoop_zeroStream 500 fuel 0 0 (Or.inl (by omega))] at hr
  exact Option.noConfusion hr

/-- C10. The return value of `WaitResponse` is not confined to
`{ACK, NAK, 0}`: on a transport whose first available byte is 0x42 the
waiter terminates at once (no empty polls) and hands 0x42 back verbatim. -/
theorem c10_unexpected_byte_returned :
    WaitResponse 100 500 (scons 0x42 emptyStream) 2
      = some ⟨0x42, 0, [Ev.delay 100, Ev.read 0x42]⟩
    ∧ (0x42 : ℕ) ≠ 0 ∧ (0x42 : ℕ) ≠ ACK ∧ (0x42 : ℕ) ≠ NAK := by
  decide

/-- The Batteries floor on `ℚ` agrees with the Mathlib floor. -/
theorem rat_floor_eq (q : ℚ) : Rat.floor q = ⌊q⌋ := by
  rw [Rat.floor_def']
  exact Rat.floor_def.symm

/-- On nonnegative inputs the C cast truncates like the floor. -/
theorem cint_of_nonneg (q : ℚ) (h : 0 ≤ q) : cint q = ⌊q⌋ := by
  unfold cint
  rw [show Rat.blt q 0 = false from h]
  simp [rat_floor_eq]

/-- The C cast of a nonnegative rational is nonnegative. -/
theorem cint_nonneg (q : ℚ) (h : 0 ≤ q) : 0 ≤ cint q := by
  rw [cint_of_nonneg q h]
  exact Int.floor_nonneg.mpr h

/-- The C cast respects strict upper bounds by numerals. -/
theorem cint_lt_of_lt (q : ℚ) (n : ℕ) (h0 : 0 ≤ q) (h : q < n) :
    cint q < n := by
  rw [cint_of_nonneg q h0, Int.floor_lt]
  push_cast
  exact h

/-- Ones digit of the temperature field, for nonnegative input: always an
ASCII digit. -/
theorem tempOnesByte_digit (deg : ℚ) (h : 0 ≤ deg) :
    tempOnesByte deg = 48 + (cint deg).toNat % 10 := by
  have h0 : 0 ≤ cint deg := cint_nonneg deg h
  have hc : cint deg = ↑((cint deg).toNat) := (Int.toNat_of_nonneg h0).symm
  unfold tempOnesByte
  rw [hc]
  show ((cint deg).toNat % 10 + 48) % 256 = 48 + (cint deg).toNat % 10
  omega

/-- Tenths digit of the temperature field, for nonnegative input: always an
ASCII digit. -/
theorem tempTenthsByte_digit (deg : ℚ) (h : 0 ≤ deg) :
    tempTenthsByte deg = 48 + (cint (deg * 10)).toNat % 10 := by
  have hq : (0 : ℚ) ≤ deg * 10 := by positivity
  have h0 : 0 ≤ cint (deg * 10) := cint_nonneg _ hq
  have hc : cint (deg * 10) = ↑((cint (deg * 10)).toNat) :=
    (Int.toNat_of_nonneg h0).symm
  unfold tempTenthsByte
  rw [hc]
  show ((cint (deg * 10)).toNat % 10 + 48) % 256
      = 48 + (cint (deg * 10)).toNat % 10
  omega

/-- Tens byte of the temperature field, for input in the intended range:
blank exactly when the truncated value is below 10, an ASCII digit
otherwise. -/
theorem tempTensByte_digit (deg : ℚ) (h0 : 0 ≤ deg) (h1 : deg < 100) :
    tempTensByte deg
      = if cint deg < 10 then 32 else 48 + (cint deg).toNat / 10 % 10 := by
  have hn : 0 ≤ cint deg := cint_nonneg deg h0
  have hlt : cint deg < 100 := cint_lt_of_lt deg 100 h0 h1
  have hc : cint deg = ↑((cint deg).toNat) := (Int.toNat_of_nonneg hn).symm
  simp only [tempTensByte]
  rw [hc]
  show (if ((cint deg).toNat / 10 % 10 + 48) % 256 = 48 then 32
      else ((cint deg).toNat / 10 % 10 + 48) % 256)
    = if ((cint deg).toNat : ℤ) < 10 then 32
      else 48 + (cint deg).toNat / 10 % 10
  split_ifs <;> omega

/-- Ones digit of the humidity field, for nonnegative input. -/
theorem humOnesByte_digit (hum : ℚ) (h : 0 ≤ hum) :
    humOnesByte hum = 48 + (cint hum).toNat % 10 := by
  have h0 : 0 ≤ cint hum := cint_nonneg hum h
  have hc : cint hum = ↑((cint hum).toNat) := (Int.toNat_of_nonneg h0).symm
  unfold humOnesByte
  rw [hc]
  show ((cint hum).toNat % 10 + 48) % 256 = 48 + (cint hum).toNat % 10
  omega

/-- Tens byte of the humidity field, for input in the intended range. -/
theorem humTensByte_digit (hum : ℚ) (h0 : 0 ≤ hum) (h1 : hum < 100) :
    humTensByte hum
      = if cint hum < 10 then 32 else 48 + (cint hum).toNat / 10 % 10 := by
  have hn : 0 ≤ cint hum := cint_nonneg hum h0
  have hlt : cint hum < 100 := cint_lt_of_lt hum 100 h0 h1
  have hc : cint hum = ↑((cint hum).toNat) := (Int.toNat_of_nonneg hn).symm
  simp only [humTensByte]
  rw [hc]
  show (if ((cint hum).toNat / 10 % 10 + 48) % 256 = 48 then 32
      else ((cint hum).toNat / 10 % 10 + 48) % 256)
    = if ((cint hum).toNat : ℤ) < 10 then 32
      else 48 + (cint hum).toNat / 10 % 10
  split_ifs <;> omega

/-- Positions of the digit bytes inside a patched temperature frame. -/
theorem updateTemperatureFrame_digits (deg : ℚ) :
    (updateTemperatureFrame deg).get? 23 = some (tempTensByte deg)
    ∧ (updateTemperatureFrame deg).get? 24 = some (tempOnesByte deg)
    ∧ (updateTemperatureFrame deg).get? 26 = some (tempTenthsByte deg) := by
  simp only [updateTemperatureFrame, patchTemp]
  refine ⟨?_, ?_, ?_⟩
  · rw [List.get?_set_ne _ _ (by omega),
      List.get?_set_eq_of_lt _ (by simp [tempDrawTemplate])]
  · rw [List.get?_set_ne _ _ (by omega), List.get?_set_ne _ _ (by omega),
      List.get?_set_eq_of_lt _ (by simp [tempDrawTemplate])]
  · rw [List.get?_set_ne _ _ (by omega), List.get?_set_ne _ _ (by omega),
      List.get?_set_ne _ _ (by omega),
      List.get?_set_eq_of_lt _ (by simp [tempDrawTemplate])]

/-- Positions of the digit bytes inside a patched humidity frame. -/
theorem updateHumidityFrame_digits (hum : ℚ) :
    (updateHumidityFrame hum).get? 22 = some (humTensByte hum)
    ∧ (updateHumidityFrame hum).get? 23 = some (humOnesByte hum) := by
  simp only [updateHumidityFrame, patchHum]
  refine ⟨?_, ?_⟩
  · rw [List.get?_set_ne _ _ (by omega),
      List.get?_set_eq_of_lt _ (by simp [humDrawTemplate])]
  · rw [List.get?_set_ne _ _ (by omega), List.get?_set_ne _ _ (by omega),
      List.get?_set_eq_of_lt _ (by simp [humDrawTemplate])]

/-- C6. `UpdateTemperature(18.5)` issues exactly the fixed 16-byte
clear-temperature frame, a wait with parameters (100, 500), the 33-byte draw
frame whose digit bytes at offsets 23, 24, 26 read '1', '8', '5' and whose
offset-31 byte is the checksum of its first 31 bytes, and a final wait with
parameters (100, 500). -/
theorem c6_update_temperature_18_5 :
    (UpdateTemperatureSt tempDrawTemplate (18.5 : ℚ)).1
      = [Cmd.write clearTemperatureFrame, Cmd.wait 100 500,
         Cmd.write (updateTemperatureFrame (18.5 : ℚ)), Cmd.wait 100 500]
    ∧ clearTemperatureFrame.length = 16
    ∧ (updateTemperatureFrame (18.5 : ℚ)).length = 33
    ∧ (updateTemperatureFrame (18.5 : ℚ)).get? 23 = some 49
    ∧ (updateTemperatureFrame (18.5 : ℚ)).get? 24 = some 56
    ∧ (updateTemperatureFrame (18.5 : ℚ)).get? 26 = some 53
    ∧ (updateTemperatureFrame (18.5 : ℚ)).get? 31
        = some (CheckSum (updateTemperatureFrame (18.5 : ℚ)) 31) := by
  refine ⟨rfl, by decide, ?_, ?_, ?_, ?_, ?_⟩ <;>
  · rw [lit_c6]
    simp only [updateTemperatureFrame, patchTemp, tempTenthsByte_as_mkRat]
    decide

/-- C7 (amended). Digit extraction truncates and suppresses a leading zero
on the tens place only: for inputs in the intended range the tens byte is a
space exactly when the truncated value is below ten, while the ones and
tenths bytes are always ASCII digits; concretely 7.83 renders with a space
then digits 7 and 8 (tenths 8, not the claimed 3), 23.05 as digits 2, 3, 0,
humidity 45 as digits 4, 5 and humidity 5 as a space then digit 5. -/
theorem c7_digit_extraction (deg hum : ℚ) (hd0 : 0 ≤ deg) (hd1 : deg < 100)
    (hh0 : 0 ≤ hum) (hh1 : hum < 100) :
    ((updateTemperatureFrame deg).get? 23
        = some (if cint deg < 10 then 32
            else 48 + (cint deg).toNat / 10 % 10))
    ∧ (updateTemperatureFrame deg).get? 24
        = some (48 + (cint deg).toNat % 10)
    ∧ (updateTemperatureFrame deg).get? 26
        = some (48 + (cint (deg * 10)).toNat % 10)
    ∧ ((updateHumidityFrame hum).get? 22
        = some (if cint hum < 10 then 32
            else 48 + (cint hum).toNat / 10 % 10))
    ∧ (updateHumidityFrame hum).get? 23
        = some (48 + (cint hum).toNat % 10)
    ∧ (updateTemperatureFrame (7.83 : ℚ)).get? 23 = some 32
    ∧ (updateTemperatureFrame (7.83 : ℚ)).get? 24 = some 55
    ∧ (updateTemperatureFrame (7.83 : ℚ)).get? 26 = some 56
    ∧ (updateTemperatureFrame (23.05 : ℚ)).get? 23 = some 50
    ∧ (updateTemperatureFrame (23.05 : ℚ)).get? 24 = some 51
    ∧ (updateTemperatureFrame (23.05 : ℚ)).get? 26 = some 48
    ∧ (updateHumidityFrame (45 : ℚ)).get? 22 = some 52
    ∧ (updateHumidityFrame (45 : ℚ)).get? 23 = some 53
    ∧ (updateHumidityFrame (5 : ℚ)).get? 22 = some 32
    ∧ (updateHumidityFrame (5 : ℚ)).get? 23 = some 53 := by
  obtain ⟨ht23, ht24, ht26⟩ := updateTemperatureFrame_digits deg
  obtain ⟨hh22, hh23⟩ := updateHumidityFrame_digits hum
  refine ⟨?_, ?_, ?_, ?_, ?_, ?_, ?_, ?_, ?_, ?_, ?_, ?_, ?_, ?_, ?_⟩
  · rw [ht23, tempTensByte_digit deg hd0 hd1]
  · rw [ht24, tempOnesByte_digit deg hd0]
  · rw [ht26, tempTenthsByte_digit deg hd0]
  · rw [hh22, humTensByte_digit hum hh0 hh1]
  · rw [hh23, humOnesByte_digit hum hh0]
  all_goals
    first
    | (rw [lit_temp_a]
       simp only [updateTemperatureFrame, patchTemp, tempTenthsByte_as_mkRat]
       decide)
    | (rw [lit_temp_b]
       simp only [updateTemperatureFrame, patchTemp, tempTenthsByte_as_mkRat]
       decide)
    | decide

/-- Witness for the amended C7 at 23.05 degrees and 45 percent. -/
theorem c7_digit_extraction_witness :
    0 ≤ (mkRat 461 20 : ℚ) ∧ (mkRat 461 20 : ℚ) < 100
    ∧ 0 ≤ (45 : ℚ) ∧ (45 : ℚ) < 100
    ∧ (((updateTemperatureFrame (mkRat 461 20)).get? 23
        = some (if cint (mkRat 461 20) < 10 then 32
            else 48 + (cint (mkRat 461 20)).toNat / 10 % 10))
    ∧ (updateTemperatureFrame (mkRat 461 20)).get? 24
        = some (48 + (cint (mkRat 461 20)).toNat % 10)
    ∧ (updateTemperatureFrame (mkRat 461 20)).get? 26
        = some (48 + (cint ((mkRat 461 20) * 10)).toNat % 10)
    ∧ ((updateHumidityFrame (45 : ℚ)).get? 22
        = some (if cint (45 : ℚ) < 10 then 32
            else 48 + (cint (45 : ℚ)).toNat / 10 % 10))
    ∧ (updateHumidityFrame (45 : ℚ)).get? 23
        = some (48 + (cint (45 : ℚ)).toNat % 10)
    ∧ (updateTemperatureFrame (7.83 : ℚ)).get? 23 = some 32
    ∧ (updateTemperatureFrame (7.83 : ℚ)).get? 24 = some 55
    ∧ (updateTemperatureFrame (7.83 : ℚ)).get? 26 = some 56
    ∧ (updateTemperatureFrame (23.05 : ℚ)).get? 23 = some 50
    ∧ (updateTemperatureFrame (23.05 : ℚ)).get? 24 = some 51
    ∧ (updateTemperatureFrame (23.05 : ℚ)).get? 26 = some 48
    ∧ (updateHumidityFrame (45 : ℚ)).get? 22 = some 52
    ∧ (updateHumidityFrame (45 : ℚ)).get? 23 = some 53
    ∧ (updateHumidityFrame (5 : ℚ)).get? 22 = some 32
    ∧ (updateHumidityFrame (5 : ℚ)).get? 23 = some 53) :=
  ⟨by decide, by decide, by decide, by decide,
    c7_digit_extraction (mkRat 461 20) 45
      (by decide) (by decide) (by decide) (by decide)⟩

/-- Counterexample to C7 as stated: formatting 7.83 yields the tenths byte
'8' (56), not '3' (51) — `(int)(7.83 * 10) % 10` is 8. -/
theorem c7_tenths_digit_counterexample :
    (updateTemperatureFrame (7.83 : ℚ)).get? 26 = some 56
    ∧ (some (56 : ℕ) ≠ some (51 : ℕ)) := by
  refine ⟨?_, by decide⟩
  rw [lit_temp_a]
  simp only [updateTemperatureFrame, patchTemp, tempTenthsByte_as_mkRat]
  decide

/-- Re-patching the temperature buffer overwrites every byte the previous
patch wrote: the frame produced from a previously patched buffer is the
frame produced from the pristine template. -/
theorem patchTemp_overwrite (buf : List ℕ) (d1 d2 : ℚ) :
    patchTemp (patchTemp buf d1) d2 = patchTemp buf d2 := by
  simp only [patchTemp]
  set A1 := tempTenthsByte d1 with hA1
  set B1 := tempOnesByte d1 with hB1
  set C1 := tempTensByte d1 with hC1
  set A2 := tempTenthsByte d2 with hA2
  set B2 := tempOnesByte d2 with hB2
  set C2 := tempTensByte d2 with hC2
  set b1 := ((buf.set 26 A1).set 24 B1).set 23 C1 with hb1
  set cs1 := CheckSum b1 31 with hcs1
  set b2 := ((buf.set 26 A2).set 24 B2).set 23 C2 with hb2
  have hD : (((b1.set 31 cs1).set 26 A2).set 24 B2).set 23 C2
      = b2.set 31 cs1 := by
    rw [List.set_comm cs1 A2 b1 (by omega),
      List.set_comm cs1 B2 (b1.set 26 A2) (by omega),
      List.set_comm cs1 C2 ((b1.set 26 A2).set 24 B2) (by omega)]
    congr 1
    rw [hb1,
      List.set_comm C1 A2 ((buf.set 26 A1).set 24 B1) (by omega),
      List.set_comm B1 A2 (buf.set 26 A1) (by omega),
      List.set_set A1 A2 buf 26,
      List.set_comm C1 B2 ((buf.set 26 A2).set 24 B1) (by omega),
      List.set_set B1 B2 (buf.set 26 A2) 24,
      List.set_set C1 C2 ((buf.set 26 A2).set 24 B2) 23]
  rw [hD, CheckSum_set_of_le b2 31 31 cs1 (Nat.le_refl 31),
    List.set_set cs1 (CheckSum b2 31) b2 31]

/-- C8. For inputs in the intended range, calling `UpdateTemperature` twice
with the same value emits byte-identical command sequences (clear frame and
draw frame) on both calls, despite the in-place patching of the static
buffer by the first call. -/
theorem c8_idempotent_update (deg : ℚ) (h0 : 0 ≤ deg) (h1 : deg < 100) :
    (UpdateTemperatureSt tempDrawTemplate deg).1
      = (UpdateTemperatureSt
          (UpdateTemperatureSt tempDrawTemplate deg).2 deg).1 := by
  simp only [UpdateTemperatureSt]
  rw [patchTemp_overwrite tempDrawTemplate deg deg]

/-- Witness for C8 at 18.5 degrees. -/
theorem c8_idempotent_update_witness :
    0 ≤ (mkRat 37 2 : ℚ) ∧ (mkRat 37 2 : ℚ) < 100
    ∧ (UpdateTemperatureSt tempDrawTemplate (mkRat 37 2)).1
      = (UpdateTemperatureSt
          (UpdateTemperatureSt tempDrawTemplate (mkRat 37 2)).2
          (mkRat 37 2)).1 :=
  ⟨by decide, by decide,
    c8_idempotent_update (mkRat 37 2) (by decide) (by decide)⟩

/-- C9. A cycle of `loop()` in which the humidity or the temperature
reading is NaN is skipped entirely: the cycle performs only the cadence
sleep and the failure log line, writes no command frame, invokes no waiter,
and leaves both static buffers unchanged for the retry on the next tick. -/
theorem c9_nan_skips_cycle (h t : Option ℚ) (tBuf hBuf : List ℕ)
    (hnan : h = none ∨ t = none) :
    (loopCycle h t tBuf hBuf).1 = [Cmd.sleep 2000, Cmd.log]
    ∧ protocolWrites (loopCycle h t tBuf hBuf).1 = []
    ∧ waitCalls (loopCycle h t tBuf hBuf).1 = []
    ∧ (loopCycle h t tBuf hBuf).2 = (tBuf, hBuf) := by
  have hcy : loopCycle h t tBuf hBuf
      = ([Cmd.sleep 2000, Cmd.log], tBuf, hBuf) := by
    rcases hnan with rfl | rfl
    · rfl
    · cases h <;> rfl
  rw [hcy]
  exact ⟨rfl, rfl, rfl, rfl⟩

/-- Witness for C9 on a failed humidity reading. -/
theorem c9_nan_skips_cycle_witness :
    ((none : Option ℚ) = none ∨ (some (5 : ℚ) : Option ℚ) = none)
    ∧ ((loopCycle none (some (5 : ℚ)) tempDrawTemplate humDrawTemplate).1
        = [Cmd.sleep 2000, Cmd.log]
      ∧ protocolWrites
          (loopCycle none (some (5 : ℚ)) tempDrawTemplate humDrawTemplate).1
          = []
      ∧ waitCalls
          (loopCycle none (some (5 : ℚ)) tempDrawTemplate humDrawTemplate).1
          = []
      ∧ (loopCycle none (some (5 : ℚ)) tempDrawTemplate humDrawTemplate).2
          = (tempDrawTemplate, humDrawTemplate)) :=
  ⟨Or.inl rfl,
    c9_nan_skips_cycle none (some (5 : ℚ)) tempDrawTemplate humDrawTemplate
      (Or.inl rfl)⟩

/-- Witness for C1 on the temperature and humidity frames patched at
concrete inputs. -/
theorem c1_frame_checksum_invariant_witness :
    tempDrawTemplate.length = 33 ∧ humDrawTemplate.length = 30
    ∧ (patchTemp tempDrawTemplate (mkRat 37 2)).get? 31
        = some (CheckSum (patchTemp tempDrawTemplate (mkRat 37 2)) 31)
    ∧ (patchHum humDrawTemplate (45 : ℚ)).get? 28
        = some (CheckSum (patchHum humDrawTemplate (45 : ℚ)) 28) :=
  ⟨by decide, by decide,
    (c1_frame_checksum_invariant.2.2.2.1 tempDrawTemplate (mkRat 37 2)
      (by decide)).2,
    (c1_frame_checksum_invariant.2.2.2.2 humDrawTemplate (45 : ℚ)
      (by decide)).2⟩
